import Mathlib

/-!
Shallow embedding of the resilient request-execution core of the
account-api-client library (Go), centred on `retrier.retry`
(accountclient/retries.go), the default retry policy, the backoff
strategies, and the error-classification layer
(`reqErrFromResponse`, `sendRequestWithRetries`).

Conventions of the embedding:
* Go `*http.Response` is `Option Response`; a response carries its status
  code and its body bytes (as a `String` of bytes read by `io.ReadAll`).
* Go `error` is `Option GoError`; `GoError.urlError` stands for a
  `*url.Error` produced by `http.Client.Do`, `GoError.wrapped` for
  `fmt.Errorf("...: %w", err)`, and `errorsAsUrlError` for
  `errors.As(err, &urlErr)` which unwraps the `%w` chain.
* `time.Duration` is an `Int` counting nanoseconds; it is an `int64` in Go,
  so arithmetic on it wraps, modelled by `wrap64`.
* The attempt function handed to `retrier.retry` is modelled as a pure
  sequence `fn : Nat → Outcome`: `fn i` is the outcome of the i-th call
  (0-based).  The body bytes presented to each call are tracked separately
  in the run result, since in Go the transport consumes the body stream.
* The unbounded `for` loop of `retry` is executed with explicit fuel;
  `none` means the loop has not terminated within `fuel` iterations.
-/

/-- Model of a Go `error` value as far as the library inspects it:
a `*url.Error` from the HTTP client, any other ("generic") error, or a
`fmt.Errorf("...%w...")` wrapper around another error. -/
inductive GoError
  | urlError (msg : String)
  | generic (msg : String)
  | wrapped (wrapMsg : String) (inner : GoError)
deriving DecidableEq

/-- Model of Go `errors.As(err, &urlErr)` with `urlErr : *url.Error`:
true exactly when the error chain (following `%w` wrapping) contains a
`*url.Error`. -/
def errorsAsUrlError : GoError → Bool
  | GoError.urlError _ => true
  | GoError.generic _ => false
  | GoError.wrapped _ inner => errorsAsUrlError inner

/-- Model of `*http.Response` as the library reads it: the status code and
the full body bytes. -/
structure Response where
  statusCode : Int
  body : String
deriving DecidableEq

/-- One attempt outcome: the `(res, err)` pair returned by the attempt
function `fn` inside `retrier.retry`. -/
structure Outcome where
  res : Option Response
  err : Option GoError
deriving DecidableEq

/-- State of `http.Request.Body` as `retrier.retry` manipulates it:
either the `http.NoBody` sentinel, or a readable stream whose remaining
content is `bytes` (a fresh `bytes.Buffer` after `resetBody`). -/
inductive BodyState
  | noBody
  | stream (bytes : String)
deriving DecidableEq

/-- Model of `*http.Request` as far as `retrier.retry` touches it: only the
body.  (A nil request or a nil `Body` field, which would make the Go code
panic inside `resetBody`/`copyBody`, is outside the model.) -/
structure Request where
  body : BodyState
deriving DecidableEq

/-- The `RetryPolicy` interface of retries.go: `ShouldRetry(err, response)`
and `NumberOfRetries()`.  A policy value carries no mutable state, so the
interface is a pair of a decision function and a constant. -/
structure RetryPolicy where
  ShouldRetry : Option GoError → Option Response → Bool
  NumberOfRetries : Int

/-- The `DefaultRetryPolicy` struct of retries.go, with its `maxRetries`
field (a Go `int`, unvalidated). -/
structure DefaultRetryPolicy where
  maxRetries : Int
deriving DecidableEq

/-- Embeds `DefaultRetryPolicy.NumberOfRetries` (retries.go lines 93-95). -/
def DefaultRetryPolicy.NumberOfRetries (mrp : DefaultRetryPolicy) : Int :=
  mrp.maxRetries

/-- Embeds `DefaultRetryPolicy.ShouldRetry` (retries.go lines 108-127):
false when both error and response are nil; otherwise retry iff the error
chain contains a `*url.Error` or the response status code is ≥ 500. -/
def DefaultRetryPolicy.ShouldRetry (_ : DefaultRetryPolicy)
    (err : Option GoError) (response : Option Response) : Bool :=
  if response = none ∧ err = none then
    false
  else
    let errFromHTTPClient : Bool :=
      match err with
      | some e => errorsAsUrlError e
      | none => false
    let serverSideStatusCode : Bool :=
      match response with
      | some r => decide (500 ≤ r.statusCode)
      | none => false
    errFromHTTPClient || serverSideStatusCode

/-- Packages a `DefaultRetryPolicy` value as a `RetryPolicy` interface
value, the way Go interface dispatch does. -/
def DefaultRetryPolicy.asRetryPolicy (p : DefaultRetryPolicy) : RetryPolicy :=
  ⟨p.ShouldRetry, p.NumberOfRetries⟩

/-- Embeds the `WithRetriesOnDefaultRetryPolicy(maxRetries int)` client
option (client.go lines 75-79): it stores
`DefaultRetryPolicy{MaxRetries: maxRetries}` in the configuration with no
validation of the integer. -/
def WithRetriesOnDefaultRetryPolicy (maxRetries : Int) : RetryPolicy :=
  (DefaultRetryPolicy.mk maxRetries).asRetryPolicy

/-- Interpretation of an `Int` as a wrapped signed 64-bit value: Go's
`int64` (`time.Duration`) arithmetic reduces modulo 2^64 into the range
[-2^63, 2^63). -/
def wrap64 (z : Int) : Int :=
  let r := z % 18446744073709551616
  if r < 9223372036854775808 then r else r - 18446744073709551616

/-- The `NoBackoffStrategy` of retries.go: `Delay` always returns 0. -/
def NoBackoffStrategy.Delay (_ : Nat) : Int := 0

/-- The `LinearBackoffStrategy` struct of retries.go. -/
structure LinearBackoffStrategy where
  delayTime : Int
deriving DecidableEq

/-- Embeds `LinearBackoffStrategy.Delay` (retries.go lines 89-91): the
configured constant delay, independent of the retry count. -/
def LinearBackoffStrategy.Delay (l : LinearBackoffStrategy) (_ : Nat) : Int :=
  l.delayTime

/-- The `ExponentialBackoffStrategy` struct of retries.go: an initial delay
(`time.Duration`, i.e. int64 nanoseconds) and an integer multiplier. -/
structure ExponentialBackoffStrategy where
  initialDelay : Int
  multiplier : Int
deriving DecidableEq

/-- Embeds `ExponentialBackoffStrategy.Delay` (retries.go lines 103-106):
`math.Pow(float64(multiplier), float64(retryCount))` converted back to
`time.Duration` and multiplied by `initialDelay`.  The model computes the
power over `Int`, which agrees with the float64 computation exactly in the
regime `|multiplier|^retryCount ≤ 2^53` (below that bound `math.Pow` on
integral arguments and the `time.Duration(...)` truncation are exact); the
final `initialDelay * time.Duration(multiplier)` is an int64 product and
wraps, modelled by `wrap64`. -/
def ExponentialBackoffStrategy.Delay (e : ExponentialBackoffStrategy)
    (retryCount : Nat) : Int :=
  wrap64 (e.initialDelay * e.multiplier ^ retryCount)

/-- Duration actually slept by `time.Sleep(d)`: a negative or zero duration
causes `Sleep` to return immediately, so the slept time is `max d 0`. -/
def sleepDur (d : Int) : Int := max d 0

/-- Total time guaranteed to be spent sleeping for a list of requested
delay durations. -/
def totalSlept (delays : List Int) : Int := (delays.map sleepDur).sum

/-- Result of a terminating run of `retrier.retry`: the returned
`(res, err)` pair, the final `retriesCount`, the body state presented to
the attempt function at each call (in call order, one entry per call), and
the durations passed to `time.Sleep` (in order, one per retry). -/
structure RunResult where
  res : Option Response
  err : Option GoError
  retries : Nat
  bodies : List BodyState
  delays : List Int
deriving DecidableEq

/-- The `retrier` struct of retries.go: a retry policy and a backoff
strategy (the latter by its `Delay` method). -/
structure retrier where
  retryPolicy : RetryPolicy
  backoff : Nat → Int

/-- Embeds the `for` loop of `retrier.retry` (retries.go lines 38-51),
entered with the outcome of call number `retriesCount` in hand:
if `ShouldRetry` is false, break and return the current outcome; else if
`retriesCount == maxRetries`, return the current outcome; else sleep
`backoff.Delay(retriesCount)`, reset the body to a fresh copy of
`originalBody`, perform the next call, increment the counter.  `fuel`
bounds the number of loop iterations; `none` means the loop has not
terminated within that bound.  The counter is carried as an unbounded
`Nat` compared against the budget as an `Int`; this coincides with Go's
wrapping `int` counter whenever the budget is a representable
non-negative value (the counter then never exceeds the budget, far below
any wrap) — the regime of every theorem stated over this function.  The
negative-budget behaviour, where the wrap is reachable, is settled over
`retryLoopInt` below, which carries the counter with Go's int64
semantics. -/
def retryLoop (p : RetryPolicy) (backoff : Nat → Int) (fn : Nat → Outcome)
    (originalBody : String) : Nat → Nat → Option RunResult
  | 0, _ => none
  | fuel + 1, retriesCount =>
    if p.ShouldRetry (fn retriesCount).err (fn retriesCount).res = false then
      some ⟨(fn retriesCount).res, (fn retriesCount).err, retriesCount, [], []⟩
    else if (retriesCount : Int) = p.NumberOfRetries then
      some ⟨(fn retriesCount).res, (fn retriesCount).err, retriesCount, [], []⟩
    else
      match retryLoop p backoff fn originalBody fuel (retriesCount + 1) with
      | none => none
      | some rr =>
        some { rr with
                 bodies := BodyState.stream originalBody :: rr.bodies,
                 delays := backoff retriesCount :: rr.delays }

/-- Bytes buffered by `copyBody` before the first attempt (retries.go lines
28-34): the request body's content when one is present, nil (empty)
otherwise.  The read/close error branch of `copyBody` cannot occur for an
in-memory body and is outside the model. -/
def Request.origBytes : Request → String
  | ⟨BodyState.noBody⟩ => ""
  | ⟨BodyState.stream bytes⟩ => bytes

/-- Embeds `retrier.retry` (retries.go lines 19-52).  Before the first
call: if the request carries a body, it is buffered once and reset to a
fresh copy of those bytes (so the first call is presented exactly the
original bytes); an `http.NoBody` body is left untouched.  Then the first
call is performed and the loop runs.  Each retry is presented a fresh
stream of the buffered bytes (`resetBody`).  The returned `RunResult`
additionally records the per-call presented bodies and the slept delays. -/
def retrier.retry (r : retrier) (request : Request) (fn : Nat → Outcome)
    (fuel : Nat) : Option RunResult :=
  match retryLoop r.retryPolicy r.backoff fn request.origBytes fuel 0 with
  | none => none
  | some rr => some { rr with bodies := request.body :: rr.bodies }

/-- The same `for` loop of `retrier.retry` (retries.go lines 38-51) with
`retriesCount` carried exactly as Go carries it: an `int` (int64) that
wraps on increment (`wrap64 (rc + 1)` models `retriesCount++` with Go's
defined two's-complement overflow).  The control flow is identical to
`retryLoop`; the body-reset and sleep bookkeeping, orthogonal to the exit
question this refinement settles, is omitted.  `i` is the (mathematical)
index of the call whose outcome is in hand, used to index the outcome
sequence `fn`; on success the result carries the final outcome, the final
counter value and the final call index. -/
def retryLoopInt (p : RetryPolicy) (fn : Nat → Outcome) :
    Nat → Nat → Int → Option (Outcome × Int × Nat)
  | 0, _, _ => none
  | fuel + 1, i, rc =>
    if p.ShouldRetry (fn i).err (fn i).res = false then some (fn i, rc, i)
    else if rc = p.NumberOfRetries then some (fn i, rc, i)
    else retryLoopInt p fn fuel (i + 1) (wrap64 (rc + 1))

example : (ExponentialBackoffStrategy.mk 7 2).Delay 3 = 56 := by decide

example :
    retrier.retry ⟨(DefaultRetryPolicy.mk 2).asRetryPolicy, fun _ => 5⟩
      ⟨BodyState.stream "ab"⟩ (fun _ => ⟨some ⟨500, ""⟩, none⟩) 3 =
    some ⟨some ⟨500, ""⟩, none, 2,
      [BodyState.stream "ab", BodyState.stream "ab", BodyState.stream "ab"],
      [5, 5]⟩ := by decide

/-- Model of a parsed JSON document, as far as `encoding/json` structure is
needed to describe `json.Unmarshal` into `ErrResponseBody`.  Number
literals keep their raw text (their numeric value is never used by the
library). -/
inductive Json
  | null
  | bool (b : Bool)
  | num (raw : String)
  | str (s : String)
  | arr (elems : List Json)
  | obj (fields : List (String × Json))

/-- Opening brace character. -/
def lbraceChar : Char := Char.ofNat 123

/-- Closing brace character. -/
def rbraceChar : Char := Char.ofNat 125

/-- Opening bracket character. -/
def lbrackChar : Char := Char.ofNat 91

/-- Closing bracket character. -/
def rbrackChar : Char := Char.ofNat 93

/-- JSON whitespace accepted between tokens (space, tab, newline, carriage
return), as in `encoding/json`. -/
def isWsChar (c : Char) : Bool :=
  c = ' ' || c = '\t' || c = '\n' || c = '\r'

/-- Drops leading JSON whitespace. -/
def skipWs : List Char → List Char
  | [] => []
  | c :: cs => if isWsChar c then skipWs cs else c :: cs

/-- Resolution of a single-character backslash escape inside a JSON string
literal, as accepted by `encoding/json` (`\uXXXX` is handled separately in
`parseStringBody`). -/
def unescapeChar (c : Char) : Option Char :=
  if c = '"' then some '"'
  else if c = '\\' then some '\\'
  else if c = '/' then some '/'
  else if c = 'b' then some '\x08'
  else if c = 'f' then some '\x0C'
  else if c = 'n' then some '\n'
  else if c = 't' then some '\t'
  else if c = 'r' then some '\r'
  else none

/-- Value of a hexadecimal digit character. -/
def hexDigitVal (c : Char) : Option Nat :=
  if '0' ≤ c ∧ c ≤ '9' then some (c.toNat - 48)
  else if 'a' ≤ c ∧ c ≤ 'f' then some (c.toNat - 87)
  else if 'A' ≤ c ∧ c ≤ 'F' then some (c.toNat - 55)
  else none

/-- Parses the body of a JSON string literal after its opening quote,
up to and including the closing quote; returns the decoded characters and
the remaining input.  Escapes follow `encoding/json`: the single-character
escapes, and `\uXXXX` UTF-16 units where a high/low surrogate pair is
combined into one code point and an invalid surrogate decodes to U+FFFD,
exactly as Go's decoder does with `utf16.DecodeRune` /
`unicode.ReplacementChar` (consuming only the first unit when the pair is
invalid).  The first argument is fuel, spent one unit per decoded
character; every recursive call consumes at least one input character, so
fuel `length + 1` always suffices (callers pass exactly that). -/
def parseStringBody : Nat → List Char → Option (List Char × List Char)
  | 0, _ => none
  | _ + 1, [] => none
  | fuel + 1, c :: cs =>
    if c = '"' then some ([], cs)
    else if c = '\\' then
      match cs with
      | 'u' :: a :: b :: d1 :: d2 :: cs2 =>
        match hexDigitVal a, hexDigitVal b, hexDigitVal d1, hexDigitVal d2 with
        | some x1, some x2, some x3, some x4 =>
          let v := ((x1 * 16 + x2) * 16 + x3) * 16 + x4
          if 0xD800 ≤ v ∧ v ≤ 0xDBFF then
            match cs2 with
            | '\\' :: 'u' :: e1 :: e2 :: e3 :: e4 :: cs3 =>
              match hexDigitVal e1, hexDigitVal e2, hexDigitVal e3, hexDigitVal e4 with
              | some y1, some y2, some y3, some y4 =>
                let w := ((y1 * 16 + y2) * 16 + y3) * 16 + y4
                if 0xDC00 ≤ w ∧ w ≤ 0xDFFF then
                  (parseStringBody fuel cs3).map (fun p =>
                    (Char.ofNat (0x10000 + (v - 0xD800) * 0x400 + (w - 0xDC00)) :: p.1,
                      p.2))
                else
                  (parseStringBody fuel cs2).map
                    (fun p => (Char.ofNat 0xFFFD :: p.1, p.2))
              | _, _, _, _ =>
                (parseStringBody fuel cs2).map
                  (fun p => (Char.ofNat 0xFFFD :: p.1, p.2))
            | _ =>
              (parseStringBody fuel cs2).map
                (fun p => (Char.ofNat 0xFFFD :: p.1, p.2))
          else if 0xDC00 ≤ v ∧ v ≤ 0xDFFF then
            (parseStringBody fuel cs2).map
              (fun p => (Char.ofNat 0xFFFD :: p.1, p.2))
          else
            (parseStringBody fuel cs2).map (fun p => (Char.ofNat v :: p.1, p.2))
        | _, _, _, _ => none
      | e :: cs2 =>
        match unescapeChar e with
        | some ec => (parseStringBody fuel cs2).map (fun p => (ec :: p.1, p.2))
        | none => none
      | [] => none
    else (parseStringBody fuel cs).map (fun p => (c :: p.1, p.2))

/-- Characters that may occur in a JSON number literal.  The model accepts
the maximal run of such characters starting with a digit or minus sign;
this is laxer than the `encoding/json` grammar (e.g. `1.2.3` would be
accepted), a divergence only reachable on malformed numeric bodies, which
no theorem below exercises. -/
def isNumChar (c : Char) : Bool :=
  c.isDigit || c = '-' || c = '+' || c = '.' || c = 'e' || c = 'E'

/-- Recursion mode of the JSON parsing engine: which grammar production is
being parsed, with the accumulator of elements or members collected so
far.  A single fuel-indexed engine (rather than mutual recursion) keeps the
recursion structural so that proofs can evaluate the parser. -/
inductive PMode
  | val
  | objBody
  | arrBody
  | elems (acc : List Json)
  | members (acc : List (String × Json))

/-- JSON parsing engine.  `PMode.val` parses one value (with leading
whitespace); `objBody`/`arrBody` parse the remainder of an object/array
after its opening brace/bracket; `elems`/`members` parse a non-empty
comma-separated tail.  `fuel` bounds the recursion depth; each recursive
call consumes fuel, and at most two calls happen per input character, so
`2 * length + 4` fuel always suffices. -/
def parseStep : Nat → PMode → List Char → Option (Json × List Char)
  | 0, _, _ => none
  | fuel + 1, PMode.val, cs =>
    match skipWs cs with
    | [] => none
    | 't' :: 'r' :: 'u' :: 'e' :: rest => some (Json.bool true, rest)
    | 'f' :: 'a' :: 'l' :: 's' :: 'e' :: rest => some (Json.bool false, rest)
    | 'n' :: 'u' :: 'l' :: 'l' :: rest => some (Json.null, rest)
    | c :: rest =>
      if c = '"' then
        match parseStringBody (rest.length + 1) rest with
        | some (s, rem) => some (Json.str (String.mk s), rem)
        | none => none
      else if c = lbraceChar then parseStep fuel PMode.objBody rest
      else if c = lbrackChar then parseStep fuel PMode.arrBody rest
      else if c.isDigit || c = '-' then
        let sp := (c :: rest).span isNumChar
        some (Json.num (String.mk sp.1), sp.2)
      else none
  | fuel + 1, PMode.objBody, cs =>
    match skipWs cs with
    | [] => none
    | c :: rest =>
      if c = rbraceChar then some (Json.obj [], rest)
      else parseStep fuel (PMode.members []) (c :: rest)
  | fuel + 1, PMode.arrBody, cs =>
    match skipWs cs with
    | [] => none
    | c :: rest =>
      if c = rbrackChar then some (Json.arr [], rest)
      else parseStep fuel (PMode.elems []) (c :: rest)
  | fuel + 1, PMode.elems acc, cs =>
    match parseStep fuel PMode.val cs with
    | none => none
    | some (v, rest) =>
      match skipWs rest with
      | ',' :: rest2 => parseStep fuel (PMode.elems (acc ++ [v])) rest2
      | d :: rest2 =>
        if d = rbrackChar then some (Json.arr (acc ++ [v]), rest2) else none
      | [] => none
  | fuel + 1, PMode.members acc, cs =>
    match skipWs cs with
    | [] => none
    | c :: rest =>
      if c = '"' then
        match parseStringBody (rest.length + 1) rest with
        | none => none
        | some (key, afterKey) =>
          match skipWs afterKey with
          | ':' :: afterColon =>
            match parseStep fuel PMode.val afterColon with
            | none => none
            | some (v, afterVal) =>
              match skipWs afterVal with
              | ',' :: afterComma =>
                parseStep fuel
                  (PMode.members (acc ++ [(String.mk key, v)])) afterComma
              | d :: rest2 =>
                if d = rbraceChar then
                  some (Json.obj (acc ++ [(String.mk key, v)]), rest2)
                else none
              | [] => none
          | _ => none
      else none

/-- Parses one JSON value (with leading whitespace) from the input. -/
def parseVal (fuel : Nat) (cs : List Char) : Option (Json × List Char) :=
  parseStep fuel PMode.val cs

/-- Model of `json.Unmarshal` succeeding on a whole body: one JSON value
followed only by whitespace.  Fuel: the engine spends fuel only on
`parseStep` recursion and at most three engine steps occur per input
character consumed (worst case an opening bracket:
`val → arrBody → elems` before the element's own `val` step consumes the
next character; inductively a value of `c` characters needs at most `3c`
fuel), so `3 * length + 4` fuel suffices for every body the grammar
accepts. -/
def jsonUnmarshal (body : String) : Option Json :=
  match parseVal (3 * body.length + 4) body.toList with
  | some (v, rest) => if skipWs rest = [] then some v else none
  | none => none

/-- ASCII lower-casing, used for field-name matching. -/
def lowerAscii (c : Char) : Char :=
  if 'A' ≤ c ∧ c ≤ 'Z' then Char.ofNat (c.toNat + 32) else c

/-- Model of Go's case-insensitive field-name match (`strings.EqualFold`)
restricted to ASCII folding; the exotic Unicode foldings EqualFold also
accepts (the Kelvin sign for `k`, the long s for `s`) are outside the
model and not exercised by any theorem. -/
def eqFoldAscii (a b : String) : Bool :=
  a.toList.map lowerAscii == b.toList.map lowerAscii

/-- Model of `json.Unmarshal(responseBody, &errResponseBody)` for
`ErrResponseBody struct { ErrorMessage string }` with tag
`error_message` (request_error.go lines 9-11, 26-27):
`none` means Unmarshal returned a non-nil error; `some msg` means it
succeeded and left `ErrorMessage = msg`.  Unmarshal succeeds on JSON
`null` (a no-op) and on any JSON object: object keys are matched to the
field case-insensitively, each matching key assigns in document order (a
JSON `null` value is a no-op, so the last matching string value wins; no
matching key leaves the zero value ""), and a matching key whose value is
neither a string nor null raises an `UnmarshalTypeError`, surfaced as a
non-nil error.  Any other document shape is an error. -/
def unmarshalErrorMessage (body : String) : Option String :=
  match jsonUnmarshal body with
  | some (Json.obj fields) =>
    let vals := (fields.filter (fun kv => eqFoldAscii kv.1 "error_message")).map
      Prod.snd
    if vals.all (fun v =>
        match v with
        | Json.str _ => true
        | Json.null => true
        | _ => false) then
      some (match (vals.filterMap (fun v =>
          match v with
          | Json.str s => some s
          | _ => none)).getLast? with
        | some s => s
        | none => "")
    else none
  | some Json.null => some ""
  | some _ => none
  | none => none

/-- The `RequestError` struct of request_error.go: the classified API
error, carrying the response status code and a message. -/
structure RequestError where
  statusCode : Int
  errMsg : String
deriving DecidableEq

/-- Embeds `NewRequestErr` (request_error.go lines 18-23), with the error
argument already rendered to its message string. -/
def NewRequestErr (statusCode : Int) (errMsg : String) : RequestError :=
  ⟨statusCode, errMsg⟩

/-- Embeds `client.reqErrFromResponse(responseBody []byte, statusCode int)`
(request_error.go lines 25-36): unmarshal the body into `ErrResponseBody`;
on an unmarshal error fall back to the whole body rendered as a string;
otherwise use the parsed `ErrorMessage`.  Always returns a (non-nil)
`RequestError` carrying the given status code. -/
def reqErrFromResponse (responseBody : String) (statusCode : Int) :
    RequestError :=
  match unmarshalErrorMessage responseBody with
  | none => NewRequestErr statusCode responseBody
  | some msg => NewRequestErr statusCode msg

example : reqErrFromResponse "" 404 = ⟨404, ""⟩ := by decide

example :
    reqErrFromResponse "\x7b\"error_message\":\"bad country\"\x7d" 400 =
    ⟨400, "bad country"⟩ := by decide

example : reqErrFromResponse "\x7b\x7d" 400 = ⟨400, ""⟩ := by decide

example : reqErrFromResponse "\x7b\"e\":[[[[[[0]]]]]]\x7d" 400 = ⟨400, ""⟩ := by
  decide

example : reqErrFromResponse "\x7b\"ERROR_MESSAGE\":\"x\"\x7d" 400 = ⟨400, "x"⟩ := by
  decide

example :
    reqErrFromResponse "\x7b\"error_message\":\"\\u0041\"\x7d" 400 = ⟨400, "A"⟩ := by
  decide

/-- Result of `Client.sendRequestWithRetries` (client.go lines 175-204):
either the raw response body bytes (success), or one of the error shapes
the function can produce.  `classifiedErr` is the `reqErrFromResponse`
path; `sendErr` is the `fmt.Errorf("failed to send request : %w", err)`
wrapping of an error coming out of the retrier; `panicNilResponse` marks
the run-time panic the Go code would hit dereferencing a nil response when
the retrier returns `(nil, nil)`. -/
inductive SendResult
  | ok (body : String)
  | classifiedErr (e : RequestError)
  | sendErr (e : GoError)
  | panicNilResponse
deriving DecidableEq

/-- Embeds `Client.sendRequestWithRetries` (client.go lines 175-204): run
the retried exchange; a non-nil error from the retrier is wrapped and
returned; otherwise the final response body is read and, when the status
code is ≥ 400 (`http.StatusBadRequest`), classified through
`reqErrFromResponse`; below 400 the raw body bytes are returned with a nil
error.  Reading the in-memory body cannot fail, so the `io.ReadAll` error
branch is outside the model.  `none` propagates a non-terminating retry
loop. -/
def sendRequestWithRetries (r : retrier) (request : Request)
    (fn : Nat → Outcome) (fuel : Nat) : Option SendResult :=
  match retrier.retry r request fn fuel with
  | none => none
  | some rr =>
    match rr.err with
    | some e => some (SendResult.sendErr (GoError.wrapped "failed to send request : " e))
    | none =>
      match rr.res with
      | none => some SendResult.panicNilResponse
      | some res =>
        if 400 ≤ res.statusCode then
          some (SendResult.classifiedErr (reqErrFromResponse res.body res.statusCode))
        else
          some (SendResult.ok res.body)

example :
    sendRequestWithRetries ⟨(DefaultRetryPolicy.mk 0).asRetryPolicy, fun _ => 0⟩
      ⟨BodyState.noBody⟩ (fun _ => ⟨some ⟨200, "pong"⟩, none⟩) 1 =
    some (SendResult.ok "pong") := by decide

/-- Invariant of the retry loop: a terminating run (entered with the
outcome of call `c` in hand) returns the outcome of its last call, stops
exactly at the first counter value where the policy refuses or the counter
equals the budget, and records one fresh body copy and one slept delay per
retry. -/
theorem retryLoop_some_spec (p : RetryPolicy) (b : Nat → Int)
    (fn : Nat → Outcome) (orig : String) :
    ∀ (fuel c : Nat) (rr : RunResult),
      retryLoop p b fn orig fuel c = some rr →
      rr.res = (fn rr.retries).res ∧ rr.err = (fn rr.retries).err ∧
      c ≤ rr.retries ∧
      (p.ShouldRetry (fn rr.retries).err (fn rr.retries).res = false ∨
        (rr.retries : Int) = p.NumberOfRetries) ∧
      (∀ j, c ≤ j → j < rr.retries →
        p.ShouldRetry (fn j).err (fn j).res = true ∧
        (j : Int) ≠ p.NumberOfRetries) ∧
      rr.bodies = List.replicate (rr.retries - c) (BodyState.stream orig) ∧
      rr.delays = (List.range' c (rr.retries - c)).map b := by
  intro fuel
  induction fuel with
  | zero => intro c rr h; simp [retryLoop] at h
  | succ n ih =>
    intro c rr h
    simp only [retryLoop] at h
    by_cases h1 : p.ShouldRetry (fn c).err (fn c).res = false
    · rw [if_pos h1] at h
      injection h with h
      subst h
      refine ⟨rfl, rfl, Nat.le_refl _, Or.inl h1, ?_, by simp, by simp⟩
      show ∀ j, c ≤ j → j < c → _
      intro j hj1 hj2
      omega
    · rw [if_neg h1] at h
      by_cases h2 : (c : Int) = p.NumberOfRetries
      · rw [if_pos h2] at h
        injection h with h
        subst h
        refine ⟨rfl, rfl, Nat.le_refl _, Or.inr h2, ?_, by simp, by simp⟩
        show ∀ j, c ≤ j → j < c → _
        intro j hj1 hj2
        omega
      · rw [if_neg h2] at h
        cases hrec : retryLoop p b fn orig n (c + 1) with
        | none => rw [hrec] at h; simp at h
        | some rr0 =>
          rw [hrec] at h
          injection h with h
          subst h
          obtain ⟨e1, e2, e3, e4, e5, e6, e7⟩ := ih (c + 1) rr0 hrec
          have h1t : p.ShouldRetry (fn c).err (fn c).res = true := by
            revert h1
            cases p.ShouldRetry (fn c).err (fn c).res <;> simp
          refine ⟨e1, e2, ?_, e4, ?_, ?_, ?_⟩
          · show c ≤ rr0.retries
            omega
          · show ∀ j, c ≤ j → j < rr0.retries → _
            intro j hj1 hj2
            rcases Nat.eq_or_lt_of_le hj1 with hj | hj
            · exact hj ▸ ⟨h1t, h2⟩
            · exact e5 j hj hj2
          · show BodyState.stream orig :: rr0.bodies =
              List.replicate (rr0.retries - c) (BodyState.stream orig)
            rw [e6, show rr0.retries - c = (rr0.retries - (c + 1)) + 1 from by omega,
              List.replicate_succ]
          · show b c :: rr0.delays = (List.range' c (rr0.retries - c)).map b
            rw [e7, show rr0.retries - c = (rr0.retries - (c + 1)) + 1 from by omega,
              List.range'_succ, List.map_cons]

/-- With a non-negative budget `N`, the loop always terminates within
`N - c + 1` further iterations: the counter can only climb to `N`, where
the budget check stops it if the policy has not stopped it earlier. -/
theorem retryLoop_total (p : RetryPolicy) (b : Nat → Int) (fn : Nat → Outcome)
    (orig : String) (N : Nat) (hN : p.NumberOfRetries = (N : Int)) :
    ∀ (fuel c : Nat), c ≤ N → N - c < fuel →
      (retryLoop p b fn orig fuel c).isSome = true := by
  intro fuel
  induction fuel with
  | zero => intro c hc hlt; omega
  | succ n ih =>
    intro c hc hlt
    simp only [retryLoop]
    by_cases h1 : p.ShouldRetry (fn c).err (fn c).res = false
    · rw [if_pos h1]; rfl
    · rw [if_neg h1]
      by_cases h2 : (c : Int) = p.NumberOfRetries
      · rw [if_pos h2]; rfl
      · rw [if_neg h2]
        have hcN : c < N := by
          rw [hN] at h2
          omega
        have hrecsome := ih (c + 1) (by omega) (by omega)
        cases hrec : retryLoop p b fn orig n (c + 1) with
        | none => rw [hrec] at hrecsome; simp at hrecsome
        | some rr0 => rfl

/-- Run invariant lifted to `retrier.retry`: a terminating run returns the
outcome of the last call, the stop reason is one of the two loop exits, no
earlier counter value was a stop, the body presented to call 0 is the
request's (reset) body followed by one fresh copy of the buffered bytes per
retry, and the slept delays are `backoff 0, ..., backoff (retries-1)`. -/
theorem retry_some_spec (r : retrier) (request : Request) (fn : Nat → Outcome)
    (fuel : Nat) (rr : RunResult)
    (h : retrier.retry r request fn fuel = some rr) :
    rr.res = (fn rr.retries).res ∧ rr.err = (fn rr.retries).err ∧
    (r.retryPolicy.ShouldRetry (fn rr.retries).err (fn rr.retries).res = false ∨
      (rr.retries : Int) = r.retryPolicy.NumberOfRetries) ∧
    (∀ j, j < rr.retries →
      r.retryPolicy.ShouldRetry (fn j).err (fn j).res = true ∧
      (j : Int) ≠ r.retryPolicy.NumberOfRetries) ∧
    rr.bodies = request.body ::
      List.replicate rr.retries (BodyState.stream request.origBytes) ∧
    rr.delays = (List.range rr.retries).map r.backoff := by
  unfold retrier.retry at h
  cases hrec : retryLoop r.retryPolicy r.backoff fn request.origBytes fuel 0 with
  | none => rw [hrec] at h; simp at h
  | some rr0 =>
    rw [hrec] at h
    injection h with h
    subst h
    obtain ⟨e1, e2, e3, e4, e5, e6, e7⟩ :=
      retryLoop_some_spec _ _ _ _ fuel 0 rr0 hrec
    refine ⟨e1, e2, e4, ?_, ?_, ?_⟩
    · intro j hj
      exact e5 j (Nat.zero_le _) hj
    · show request.body :: rr0.bodies = _
      rw [e6]
      simp
    · show rr0.delays = _
      rw [e7, List.range_eq_range']
      simp

/-- A value already in signed 64-bit range is fixed by `wrap64`. -/
theorem wrap64_eq_self (z : Int) (h1 : -9223372036854775808 ≤ z)
    (h2 : z < 9223372036854775808) : wrap64 z = z := by
  show (if z % 18446744073709551616 < 9223372036854775808 then
      z % 18446744073709551616
    else z % 18446744073709551616 - 18446744073709551616) = z
  split <;> omega

/-- `wrap64` lands in the signed 64-bit range. -/
theorem wrap64_range (z : Int) :
    -9223372036854775808 ≤ wrap64 z ∧ wrap64 z < 9223372036854775808 := by
  simp only [wrap64]
  split <;> omega

/-- `wrap64` preserves the value modulo 2^64. -/
theorem wrap64_dvd (z : Int) :
    (18446744073709551616 : Int) ∣ (z - wrap64 z) := by
  simp only [wrap64]
  split <;> omega

/-- The signed 64-bit representative is unique: any value in range and
congruent modulo 2^64 is the wrap. -/
theorem wrap64_eq_of (z w : Int) (h1 : -9223372036854775808 ≤ w)
    (h2 : w < 9223372036854775808)
    (h3 : (18446744073709551616 : Int) ∣ (z - w)) : wrap64 z = w := by
  simp only [wrap64]
  split <;> omega

/-- Wrapping is compatible with addition: a pre-wrapped summand does not
change the result. -/
theorem wrap64_add_left (x k : Int) : wrap64 (wrap64 x + k) = wrap64 (x + k) := by
  obtain ⟨a1, a2⟩ := wrap64_range (x + k)
  apply wrap64_eq_of _ _ a1 a2
  have d1 := wrap64_dvd x
  have d2 := wrap64_dvd (x + k)
  omega

/-- Wrapping twice is wrapping once. -/
theorem wrap64_idem (z : Int) : wrap64 (wrap64 z) = wrap64 z :=
  wrap64_eq_self _ (wrap64_range z).1 (wrap64_range z).2

/-- Exit inversion for the wrapped-counter loop: a terminating run returns
the outcome of its last call and stops only because the policy refused or
the (wrapped) counter equals the budget. -/
theorem retryLoopInt_some_exit (p : RetryPolicy) (fn : Nat → Outcome) :
    ∀ (fuel i : Nat) (rc : Int) (out : Outcome) (rcf : Int) (ifin : Nat),
      retryLoopInt p fn fuel i rc = some (out, rcf, ifin) →
      out = fn ifin ∧
      (p.ShouldRetry (fn ifin).err (fn ifin).res = false ∨
        rcf = p.NumberOfRetries) := by
  intro fuel
  induction fuel with
  | zero => intro i rc out rcf ifin h; simp [retryLoopInt] at h
  | succ n ih =>
    intro i rc out rcf ifin h
    simp only [retryLoopInt] at h
    by_cases h1 : p.ShouldRetry (fn i).err (fn i).res = false
    · rw [if_pos h1] at h
      injection h with h
      injection h with ha hb
      injection hb with hb1 hb2
      subst ha
      subst hb1
      subst hb2
      exact ⟨rfl, Or.inl h1⟩
    · rw [if_neg h1] at h
      by_cases h2 : rc = p.NumberOfRetries
      · rw [if_pos h2] at h
        injection h with h
        injection h with ha hb
        injection hb with hb1 hb2
        subst ha
        subst hb1
        subst hb2
        exact ⟨rfl, Or.inr h2⟩
      · rw [if_neg h2] at h
        exact ih (i + 1) (wrap64 (rc + 1)) out rcf ifin h

/-- Termination of the wrapped-counter loop: if the counter reaches the
budget in `d` wrapping increments, the loop stops within `d + 1` further
iterations (earlier if the policy refuses first). -/
theorem retryLoopInt_isSome (p : RetryPolicy) (fn : Nat → Outcome) :
    ∀ (d : Nat), ∀ (fuel i : Nat) (rc : Int),
      wrap64 rc = rc → wrap64 (rc + d) = p.NumberOfRetries → d < fuel →
      (retryLoopInt p fn fuel i rc).isSome = true := by
  intro d
  induction d with
  | zero =>
    intro fuel i rc hrc hM hfuel
    cases fuel with
    | zero => omega
    | succ n =>
      simp only [retryLoopInt]
      by_cases h1 : p.ShouldRetry (fn i).err (fn i).res = false
      · rw [if_pos h1]; rfl
      · rw [if_neg h1]
        have hrcM : rc = p.NumberOfRetries := by
          rw [← hM]
          push_cast
          rw [add_zero, hrc]
        rw [if_pos hrcM]
        rfl
  | succ d ih =>
    intro fuel i rc hrc hM hfuel
    cases fuel with
    | zero => omega
    | succ n =>
      simp only [retryLoopInt]
      by_cases h1 : p.ShouldRetry (fn i).err (fn i).res = false
      · rw [if_pos h1]; rfl
      · rw [if_neg h1]
        by_cases h2 : rc = p.NumberOfRetries
        · rw [if_pos h2]; rfl
        · rw [if_neg h2]
          apply ih n (i + 1) (wrap64 (rc + 1))
          · exact wrap64_idem _
          · rw [wrap64_add_left]
            rw [show rc + 1 + (d : Int) = rc + ((d : Nat) + 1 : Nat) from by
              push_cast; ring]
            exact hM
          · omega

/-- Non-termination bound for the wrapped-counter loop: with a policy that
always asks for a retry, the loop runs out of any fuel that is too small
for the counter to have reached the budget. -/
theorem retryLoopInt_none (p : RetryPolicy) (fn : Nat → Outcome)
    (hSR : ∀ j, p.ShouldRetry (fn j).err (fn j).res = true) :
    ∀ (fuel i : Nat) (rc : Int), wrap64 rc = rc →
      (∀ k : Nat, k < fuel → wrap64 (rc + k) ≠ p.NumberOfRetries) →
      retryLoopInt p fn fuel i rc = none := by
  intro fuel
  induction fuel with
  | zero => intro i rc _ _; rfl
  | succ n ih =>
    intro i rc hrc hk
    have h0 : rc ≠ p.NumberOfRetries := by
      have := hk 0 (by omega)
      rw [show rc + ((0 : Nat) : Int) = rc from by push_cast; ring] at this
      rw [← hrc]
      exact this
    have hrec := ih (i + 1) (wrap64 (rc + 1)) (wrap64_idem _)
      (by
        intro k hkn
        rw [wrap64_add_left]
        rw [show rc + 1 + (k : Int) = rc + ((k : Nat) + 1 : Nat) from by
          push_cast; ring]
        exact hk (k + 1) (by omega))
    simp [retryLoopInt, hSR i, h0, hrec]

/-- Termination of `retrier.retry` within `N + 1` calls for a policy whose
budget is the non-negative integer `N`. -/
theorem retry_isSome (p : RetryPolicy) (bo : Nat → Int) (request : Request)
    (fn : Nat → Outcome) (N : Nat) (hN : p.NumberOfRetries = (N : Int)) :
    (retrier.retry ⟨p, bo⟩ request fn (N + 1)).isSome = true := by
  unfold retrier.retry
  have hsome := retryLoop_total p bo fn request.origBytes N hN (N + 1) 0
    (Nat.zero_le _) (by omega)
  cases hrec : retryLoop p bo fn request.origBytes (N + 1) 0 with
  | none => rw [hrec] at hsome; simp at hsome
  | some rr0 => rfl

/-- C3: `DefaultRetryPolicy.ShouldRetry(err, response)` answers true
exactly when the error chain contains a `*url.Error` (regardless of the
response) or a response is present with status code ≥ 500; in every other
case — both absent, any response below 500, any non-transport error — it
answers false. -/
theorem spec_c3 (mrp : DefaultRetryPolicy) (err : Option GoError)
    (response : Option Response) :
    mrp.ShouldRetry err response = true ↔
      ((∃ e, err = some e ∧ errorsAsUrlError e = true) ∨
        (∃ r, response = some r ∧ 500 ≤ r.statusCode)) := by
  cases err with
  | none =>
    cases response with
    | none => simp [DefaultRetryPolicy.ShouldRetry]
    | some r => simp [DefaultRetryPolicy.ShouldRetry]
  | some e =>
    cases response with
    | none => simp [DefaultRetryPolicy.ShouldRetry]
    | some r => simp [DefaultRetryPolicy.ShouldRetry]

/-- C5 (corrected): `ExponentialBackoffStrategy.Delay(n)` equals
`initialDelay * multiplier^n` provided the power stays in the regime where
`math.Pow` is exact (`|multiplier|^n ≤ 2^53`) and the product does not
overflow int64; outside that regime the int64 product wraps (see the
counterexample). -/
theorem spec_c5_amended (d m : Int) (n : Nat)
    (hexact : (m.natAbs : Int) ^ n ≤ 2 ^ 53)
    (hlo : -(2 ^ 63) ≤ d * m ^ n) (hhi : d * m ^ n < 2 ^ 63) :
    (ExponentialBackoffStrategy.mk d m).Delay n = d * m ^ n := by
  have e63 : (2 : Int) ^ 63 = 9223372036854775808 := by norm_num
  rw [e63] at hlo hhi
  show wrap64 (d * m ^ n) = d * m ^ n
  exact wrap64_eq_self _ (by omega) hhi

/-- Witness for C5 (corrected): a small instance inside the exact regime,
`Delay(4) = 2 * 3^4 = 162`. -/
theorem spec_c5_amended_witness :
    (ExponentialBackoffStrategy.mk 2 3).Delay 4 = 2 * 3 ^ 4 :=
  spec_c5_amended 2 3 4 (by decide) (by decide) (by decide)

/-- Counterexample to C5 as stated: with `initialDelay` one second (10^9
ns) and multiplier 10, the delay before the 11th retry is not
`d * m^10 = 10^19` ns but a negative duration, because the int64 product
overflows. -/
theorem spec_c5_counterexample :
    (ExponentialBackoffStrategy.mk 1000000000 10).Delay 10 =
        -8446744073709551616 ∧
      (ExponentialBackoffStrategy.mk 1000000000 10).Delay 10 ≠
        1000000000 * 10 ^ 10 := by
  constructor <;> decide

/-- C7: whenever `retrier.retry` stops — by the policy refusing a retry or
by the budget check — the `(res, err)` pair it returns is exactly the
outcome of the last attempt performed (attempt number `retries`, the
`retries + 1`-th call). -/
theorem spec_c7 (r : retrier) (request : Request) (fn : Nat → Outcome)
    (fuel : Nat) (rr : RunResult)
    (h : retrier.retry r request fn fuel = some rr) :
    rr.res = (fn rr.retries).res ∧ rr.err = (fn rr.retries).err ∧
      (r.retryPolicy.ShouldRetry (fn rr.retries).err (fn rr.retries).res = false ∨
        (rr.retries : Int) = r.retryPolicy.NumberOfRetries) := by
  obtain ⟨e1, e2, e3, -, -, -⟩ := retry_some_spec r request fn fuel rr h
  exact ⟨e1, e2, e3⟩

/-- Witness for C7 at a concrete run: one successful call, the returned
pair is that call's outcome. -/
theorem spec_c7_witness :
    (RunResult.mk (some (Response.mk 200 "ok")) none 0 [BodyState.noBody] []).res =
        ((fun _ : Nat => Outcome.mk (some (Response.mk 200 "ok")) none) 0).res ∧
      (RunResult.mk (some (Response.mk 200 "ok")) none 0 [BodyState.noBody] []).err =
        ((fun _ : Nat => Outcome.mk (some (Response.mk 200 "ok")) none) 0).err ∧
      ((DefaultRetryPolicy.mk 0).asRetryPolicy.ShouldRetry none
          (some (Response.mk 200 "ok")) = false ∨
        ((0 : Nat) : Int) = (DefaultRetryPolicy.mk 0).asRetryPolicy.NumberOfRetries) :=
  spec_c7 ⟨(DefaultRetryPolicy.mk 0).asRetryPolicy, fun _ => 0⟩ ⟨BodyState.noBody⟩
    (fun _ => ⟨some ⟨200, "ok"⟩, none⟩) 1
    ⟨some ⟨200, "ok"⟩, none, 0, [BodyState.noBody], []⟩ (by decide)

/-- C1: with the default policy at `maxRetries = N ≥ 0` and an attempt
sequence every outcome of which is retryable, `retry` makes exactly `N + 1`
calls (`retries = N`, one presented body per call); and with any policy
whose budget is 0 it makes exactly one call whatever the single outcome
makes `ShouldRetry` answer. -/
theorem spec_c1 :
    (∀ (N : Nat) (bo : Nat → Int) (request : Request) (fn : Nat → Outcome),
        (∀ i, ((DefaultRetryPolicy.mk (N : Int)).asRetryPolicy).ShouldRetry
            (fn i).err (fn i).res = true) →
        (retrier.retry ⟨(DefaultRetryPolicy.mk (N : Int)).asRetryPolicy, bo⟩
            request fn (N + 1)).map
            (fun rr => (rr.retries, rr.bodies.length)) = some (N, N + 1)) ∧
    (∀ (p : RetryPolicy) (bo : Nat → Int) (request : Request)
        (fn : Nat → Outcome),
        p.NumberOfRetries = 0 →
        (retrier.retry ⟨p, bo⟩ request fn 1).map
            (fun rr => (rr.retries, rr.bodies.length)) = some (0, 1)) := by
  constructor
  · intro N bo request fn hSR
    have hsome := retry_isSome ((DefaultRetryPolicy.mk (N : Int)).asRetryPolicy)
      bo request fn N rfl
    cases hret : retrier.retry ⟨(DefaultRetryPolicy.mk (N : Int)).asRetryPolicy, bo⟩
        request fn (N + 1) with
    | none => rw [hret] at hsome; simp at hsome
    | some rr =>
      obtain ⟨-, -, e3, -, e5, -⟩ := retry_some_spec _ _ _ _ rr hret
      have hretN : rr.retries = N := by
        rcases e3 with hfalse | heq
        · have hfalse2 : ((DefaultRetryPolicy.mk (N : Int)).asRetryPolicy).ShouldRetry
              (fn rr.retries).err (fn rr.retries).res = false := hfalse
          rw [hSR rr.retries] at hfalse2
          cases hfalse2
        · have heq2 : (rr.retries : Int) = (N : Int) := heq
          exact_mod_cast heq2
      simp [hretN, e5]
  · intro p bo request fn h0
    have hsome := retry_isSome p bo request fn 0 (by rw [h0]; rfl)
    cases hret : retrier.retry ⟨p, bo⟩ request fn 1 with
    | none => rw [hret] at hsome; simp at hsome
    | some rr =>
      obtain ⟨-, -, -, e4, e5, -⟩ := retry_some_spec _ _ _ _ rr hret
      have hret0 : rr.retries = 0 := by
        by_contra hne
        have := (e4 0 (by omega)).2
        rw [h0] at this
        exact this rfl
      simp [hret0, e5]

/-- Witness for C1: three calls for `maxRetries = 2` against an
always-500 upstream, and one call for a zero budget. -/
theorem spec_c1_witness :
    (retrier.retry ⟨(DefaultRetryPolicy.mk ((2 : Nat) : Int)).asRetryPolicy, fun _ => 0⟩
        ⟨BodyState.stream "b"⟩ (fun _ => ⟨some ⟨500, ""⟩, none⟩) 3).map
        (fun rr => (rr.retries, rr.bodies.length)) = some (2, 3) := by
  have h5 : ((DefaultRetryPolicy.mk ((2 : Nat) : Int)).asRetryPolicy).ShouldRetry
      none (some ⟨500, ""⟩) = true := by decide
  exact spec_c1.1 2 (fun _ => 0) ⟨BodyState.stream "b"⟩
    (fun _ => ⟨some ⟨500, ""⟩, none⟩) (fun _ => h5)

/-- C2: with the default policy at budget `N`, if the first `k < N` calls
are retryable and call `k` returns a non-retryable success (status below
500, nil error), `retry` stops after exactly `k + 1` calls and returns that
response with a nil error. -/
theorem spec_c2 (N k : Nat) (bo : Nat → Int) (request : Request)
    (fn : Nat → Outcome) (resp : Response)
    (hkN : k < N)
    (hfail : ∀ i, i < k →
      ((DefaultRetryPolicy.mk (N : Int)).asRetryPolicy).ShouldRetry
        (fn i).err (fn i).res = true)
    (hsucc : fn k = ⟨some resp, none⟩)
    (hstatus : resp.statusCode < 500) :
    (retrier.retry ⟨(DefaultRetryPolicy.mk (N : Int)).asRetryPolicy, bo⟩
        request fn (N + 1)).map
        (fun rr => (rr.res, rr.err, rr.retries, rr.bodies.length)) =
      some (some resp, none, k, k + 1) := by
  have hSRk : ((DefaultRetryPolicy.mk (N : Int)).asRetryPolicy).ShouldRetry
      (fn k).err (fn k).res = false := by
    rw [hsucc]
    show (DefaultRetryPolicy.mk (N : Int)).ShouldRetry none (some resp) = false
    simp [DefaultRetryPolicy.ShouldRetry]
    omega
  have hsome := retry_isSome ((DefaultRetryPolicy.mk (N : Int)).asRetryPolicy)
    bo request fn N rfl
  cases hret : retrier.retry ⟨(DefaultRetryPolicy.mk (N : Int)).asRetryPolicy, bo⟩
      request fn (N + 1) with
  | none => rw [hret] at hsome; simp at hsome
  | some rr =>
    obtain ⟨e1, e2, e3, e4, e5, -⟩ := retry_some_spec _ _ _ _ rr hret
    have hretk : rr.retries = k := by
      rcases Nat.lt_trichotomy rr.retries k with hlt | heq | hgt
      · rcases e3 with hfalse | heqN
        · have hfalse2 : ((DefaultRetryPolicy.mk (N : Int)).asRetryPolicy).ShouldRetry
              (fn rr.retries).err (fn rr.retries).res = false := hfalse
          rw [hfail rr.retries (by omega)] at hfalse2
          cases hfalse2
        · have heqN2 : (rr.retries : Int) = (N : Int) := heqN
          omega
      · exact heq
      · have htrue : ((DefaultRetryPolicy.mk (N : Int)).asRetryPolicy).ShouldRetry
            (fn k).err (fn k).res = true := (e4 k hgt).1
        rw [hSRk] at htrue
        cases htrue
    simp [hretk, e1, e2, hsucc, e5]

/-- Witness for C2: one 500 then a 200 under budget 3 returns the 200
after two calls. -/
theorem spec_c2_witness :
    (retrier.retry ⟨(DefaultRetryPolicy.mk ((3 : Nat) : Int)).asRetryPolicy, fun _ => 0⟩
        ⟨BodyState.noBody⟩
        (fun i => if i = 0 then ⟨some ⟨500, ""⟩, none⟩ else ⟨some ⟨200, "ok"⟩, none⟩)
        4).map
        (fun rr => (rr.res, rr.err, rr.retries, rr.bodies.length)) =
      some (some ⟨200, "ok"⟩, none, 1, 2) :=
  spec_c2 3 1 (fun _ => 0) ⟨BodyState.noBody⟩
    (fun i => if i = 0 then ⟨some ⟨500, ""⟩, none⟩ else ⟨some ⟨200, "ok"⟩, none⟩)
    ⟨200, "ok"⟩ (by decide) (by decide) (by decide) (by decide)

/-- C4: for a request carrying a body, every terminating run of `retry`
presents the attempt function with exactly the same body bytes on every
one of its `retries + 1` calls: a fresh unconsumed copy of the buffered
original bytes. -/
theorem spec_c4 (r : retrier) (bytes : String) (fn : Nat → Outcome)
    (fuel : Nat) (rr : RunResult)
    (h : retrier.retry r ⟨BodyState.stream bytes⟩ fn fuel = some rr) :
    rr.bodies = List.replicate (rr.retries + 1) (BodyState.stream bytes) := by
  obtain ⟨-, -, -, -, e5, -⟩ := retry_some_spec r ⟨BodyState.stream bytes⟩ fn fuel rr h
  rw [e5]
  show BodyState.stream bytes ::
      List.replicate rr.retries (BodyState.stream bytes) = _
  rw [List.replicate_succ]

/-- Witness for C4: a body retried once is presented twice, both times as
the original bytes. -/
theorem spec_c4_witness :
    (RunResult.mk (some (Response.mk 500 "")) none 1
        [BodyState.stream "xy", BodyState.stream "xy"] [0]).bodies =
      List.replicate (1 + 1) (BodyState.stream "xy") :=
  spec_c4 ⟨(DefaultRetryPolicy.mk 1).asRetryPolicy, fun _ => 0⟩ "xy"
    (fun _ => ⟨some ⟨500, ""⟩, none⟩) 2
    ⟨some ⟨500, ""⟩, none, 1, [BodyState.stream "xy", BodyState.stream "xy"], [0]⟩
    (by decide)

/-- C10 (corrected): over the loop with Go's wrapping int64 counter
(`retryLoopInt`), termination happens only through the policy refusing or
the counter equality check; `WithRetriesOnDefaultRetryPolicy` stores any
integer unvalidated; for a negative budget `M` with always-retryable
outcomes the loop does not stop within any fuel up to `2^64 + M` calls —
the counter must wrap all the way around — but does terminate once the
wrapped counter reaches `M`, after `2^64 + M + 1` calls; for a
representable non-negative budget `N` it terminates within `N + 1`
calls. -/
theorem spec_c10_amended :
    (∀ (p : RetryPolicy) (fn : Nat → Outcome) (fuel i : Nat) (rc : Int)
        (out : Outcome) (rcf : Int) (ifin : Nat),
        retryLoopInt p fn fuel i rc = some (out, rcf, ifin) →
        p.ShouldRetry (fn ifin).err (fn ifin).res = false ∨
          rcf = p.NumberOfRetries) ∧
    (∀ M : Int, (WithRetriesOnDefaultRetryPolicy M).NumberOfRetries = M) ∧
    (∀ (M : Int) (p : RetryPolicy) (fn : Nat → Outcome),
        -9223372036854775808 ≤ M → M < 0 → p.NumberOfRetries = M →
        (∀ j, p.ShouldRetry (fn j).err (fn j).res = true) →
        (∀ fuel : Nat, (fuel : Int) ≤ 18446744073709551616 + M →
          retryLoopInt p fn fuel 0 0 = none) ∧
        (retryLoopInt p fn ((18446744073709551616 + M).toNat + 1) 0 0).isSome =
          true) ∧
    (∀ (N : Nat) (p : RetryPolicy) (fn : Nat → Outcome),
        (N : Int) < 9223372036854775808 → p.NumberOfRetries = (N : Int) →
        (retryLoopInt p fn (N + 1) 0 0).isSome = true) := by
  refine ⟨?_, ?_, ?_, ?_⟩
  · intro p fn fuel i rc out rcf ifin h
    exact (retryLoopInt_some_exit p fn fuel i rc out rcf ifin h).2
  · intro M
    rfl
  · intro M p fn hlo hneg hM hSR
    constructor
    · intro fuel hfuel
      apply retryLoopInt_none p fn hSR fuel 0 0 (by decide)
      intro k hk
      rw [hM, zero_add]
      show wrap64 (k : Int) ≠ M
      have hkM : (k : Int) < 18446744073709551616 + M := by omega
      simp only [wrap64]
      split <;> omega
    · apply retryLoopInt_isSome p fn ((18446744073709551616 + M).toNat) _ 0 0
        (by decide)
      · rw [hM, zero_add]
        have ht : (((18446744073709551616 + M).toNat : Int)) =
            18446744073709551616 + M := Int.toNat_of_nonneg (by omega)
        rw [ht]
        apply wrap64_eq_of _ _ (by omega) (by omega)
        omega
      · omega
  · intro N p fn hNlt hN
    apply retryLoopInt_isSome p fn N _ 0 0 (by decide)
    · rw [hN, zero_add]
      exact wrap64_eq_self _ (by omega) hNlt
    · omega

/-- Witness for C10 (corrected): a budget of 2 terminates within three
calls against an always-500 upstream. -/
theorem spec_c10_amended_witness :
    (retryLoopInt ((DefaultRetryPolicy.mk ((2 : Nat) : Int)).asRetryPolicy)
        (fun _ => ⟨some ⟨500, ""⟩, none⟩) 3 0 0).isSome = true :=
  spec_c10_amended.2.2.2 2 ((DefaultRetryPolicy.mk ((2 : Nat) : Int)).asRetryPolicy)
    (fun _ => ⟨some ⟨500, ""⟩, none⟩) (by decide) rfl

/-- Counterexample to C10 as stated: with `maxRetries = -1` (stored
unvalidated by the client option) and an always-500 upstream, the loop
with Go's wrapping int64 counter does terminate — the counter wraps past
the maximum int64 and reaches -1, firing the equality check, within 2^64
iterations of fuel — so "never terminates" does not hold of the code,
only "does not terminate before the counter wraps". -/
theorem spec_c10_counterexample :
    (retryLoopInt (WithRetriesOnDefaultRetryPolicy (-1))
        (fun _ => ⟨some ⟨500, ""⟩, none⟩) 18446744073709551616 0 0).isSome =
      true := by
  apply retryLoopInt_isSome _ _ 18446744073709551615 _ 0 0 (by decide)
  · show wrap64 ((0 : Int) + (18446744073709551615 : Nat)) =
      (WithRetriesOnDefaultRetryPolicy (-1)).NumberOfRetries
    show wrap64 ((0 : Int) + (18446744073709551615 : Nat)) = -1
    apply wrap64_eq_of _ _ (by norm_num) (by norm_num)
    norm_num
  · omega

/-- C6 (corrected): every terminating run calls the backoff's `Delay`
exactly `retries` times with arguments `0, ..., retries - 1` in order and
passes each returned duration to `time.Sleep`; under exponential backoff
with non-negative `d`, `m` the total slept duration of a fully exhausted
run of `N` retries is at least `d + d*m + ... + d*m^(N-1)` provided every
term stays inside the exact float regime and inside int64 — without that
proviso the int64 product wraps to a negative duration, `time.Sleep`
returns immediately, and the bound fails (see the counterexample). -/
theorem spec_c6_amended :
    (∀ (r : retrier) (request : Request) (fn : Nat → Outcome) (fuel : Nat)
        (rr : RunResult),
        retrier.retry r request fn fuel = some rr →
        rr.delays = (List.range rr.retries).map r.backoff) ∧
    (∀ (d m : Int) (N : Nat) (request : Request) (fn : Nat → Outcome)
        (fuel : Nat) (rr : RunResult),
        retrier.retry ⟨(DefaultRetryPolicy.mk (N : Int)).asRetryPolicy,
            (ExponentialBackoffStrategy.mk d m).Delay⟩ request fn fuel = some rr →
        rr.retries = N → 0 ≤ d → 0 ≤ m →
        (∀ i, i < N → (m.natAbs : Int) ^ i ≤ 2 ^ 53 ∧ d * m ^ i < 2 ^ 63) →
        ((List.range N).map (fun i => d * m ^ i)).sum ≤ totalSlept rr.delays) := by
  constructor
  · intro r request fn fuel rr h
    exact (retry_some_spec r request fn fuel rr h).2.2.2.2.2
  · intro d m N request fn fuel rr h hretN hd hm hrange
    have hdel := (retry_some_spec _ _ _ _ rr h).2.2.2.2.2
    rw [hdel, hretN]
    show _ ≤ totalSlept ((List.range N).map (ExponentialBackoffStrategy.mk d m).Delay)
    unfold totalSlept
    rw [List.map_map]
    apply List.sum_le_sum
    intro i hi
    rw [List.mem_range] at hi
    obtain ⟨-, h63⟩ := hrange i hi
    have hnn : 0 ≤ d * m ^ i := mul_nonneg hd (pow_nonneg hm i)
    have e63 : (2 : Int) ^ 63 = 9223372036854775808 := by norm_num
    rw [e63] at h63
    show d * m ^ i ≤ sleepDur ((ExponentialBackoffStrategy.mk d m).Delay i)
    show d * m ^ i ≤ sleepDur (wrap64 (d * m ^ i))
    rw [wrap64_eq_self _ (by omega) h63]
    exact le_max_left _ _

/-- Witness for C6 (corrected): two retries at `d = 1`, `m = 2` sleep at
least `1 + 2 = 3` nanoseconds in total. -/
theorem spec_c6_amended_witness :
    ((List.range 2).map (fun i => (1 : Int) * 2 ^ i)).sum ≤
      totalSlept (RunResult.mk (some (Response.mk 500 "")) none 2
        [BodyState.noBody, BodyState.stream "", BodyState.stream ""] [1, 2]).delays :=
  spec_c6_amended.2 1 2 2 ⟨BodyState.noBody⟩ (fun _ => ⟨some ⟨500, ""⟩, none⟩) 3
    ⟨some ⟨500, ""⟩, none, 2,
      [BodyState.noBody, BodyState.stream "", BodyState.stream ""], [1, 2]⟩
    (by decide) (by decide) (by decide) (by decide) (by decide)

/-- Counterexample to C6 as stated: a fully exhausted run of 11 retries at
`d` one second, `m = 10` sleeps a total of about 1.1 seconds times 10^9 —
strictly less than the geometric sum `d + d*10 + ... + d*10^10`, because
the delay before the 11th retry wraps to a negative int64 and `time.Sleep`
returns immediately. -/
theorem spec_c6_counterexample :
    (retrier.retry ⟨(DefaultRetryPolicy.mk 11).asRetryPolicy,
        (ExponentialBackoffStrategy.mk 1000000000 10).Delay⟩ ⟨BodyState.noBody⟩
        (fun _ => ⟨some ⟨500, ""⟩, none⟩) 12).map
        (fun rr => (rr.retries, totalSlept rr.delays)) =
      some (11, 1111111111000000000) ∧
    (1111111111000000000 : Int) <
      ((List.range 11).map (fun i => (1000000000 : Int) * 10 ^ i)).sum := by
  constructor <;> decide

/-- Shape of `sendRequestWithRetries` once the retried exchange has
produced a response and a nil error: classification below/above the 400
boundary. -/
theorem sendRequestWithRetries_eq (r : retrier) (request : Request)
    (fn : Nat → Outcome) (fuel : Nat) (rr : RunResult) (res : Response)
    (h : retrier.retry r request fn fuel = some rr)
    (herr : rr.err = none) (hres : rr.res = some res) :
    sendRequestWithRetries r request fn fuel =
      if 400 ≤ res.statusCode then
        some (SendResult.classifiedErr (reqErrFromResponse res.body res.statusCode))
      else some (SendResult.ok res.body) := by
  obtain ⟨rres, rerr, rret, rbod, rdel⟩ := rr
  obtain rfl : rerr = none := herr
  obtain rfl : rres = some res := hres
  unfold sendRequestWithRetries
  rw [h]

/-- C9: when the retried exchange completes with a response,
`sendRequestWithRetries` returns a classified error exactly when the final
status code is ≥ 400; below 400 classification is bypassed and the raw
body bytes are returned with a nil error. -/
theorem spec_c9 (r : retrier) (request : Request) (fn : Nat → Outcome)
    (fuel : Nat) (rr : RunResult) (res : Response)
    (h : retrier.retry r request fn fuel = some rr)
    (herr : rr.err = none) (hres : rr.res = some res) :
    ((∃ e, sendRequestWithRetries r request fn fuel =
        some (SendResult.classifiedErr e)) ↔ 400 ≤ res.statusCode) ∧
    (res.statusCode < 400 →
      sendRequestWithRetries r request fn fuel = some (SendResult.ok res.body)) ∧
    (400 ≤ res.statusCode →
      sendRequestWithRetries r request fn fuel =
        some (SendResult.classifiedErr (reqErrFromResponse res.body res.statusCode))) := by
  have heq := sendRequestWithRetries_eq r request fn fuel rr res h herr hres
  rw [heq]
  by_cases hge : 400 ≤ res.statusCode
  · rw [if_pos hge]
    exact ⟨⟨fun _ => hge, fun _ => ⟨_, rfl⟩⟩,
      fun hlt => absurd hge (by omega), fun _ => rfl⟩
  · rw [if_neg hge]
    refine ⟨⟨?_, fun hcon => absurd hcon hge⟩, fun _ => rfl,
      fun hcon => absurd hcon hge⟩
    rintro ⟨e, he⟩
    exact SendResult.noConfusion (Option.some.inj he)

/-- Witness for C9 at a concrete run: a 200 response is returned as its
raw body with no classification. -/
theorem spec_c9_witness :
    (sendRequestWithRetries ⟨(DefaultRetryPolicy.mk 0).asRetryPolicy, fun _ => 0⟩
        ⟨BodyState.noBody⟩ (fun _ => ⟨some ⟨200, "pong"⟩, none⟩) 1 =
      some (SendResult.ok "pong")) :=
  (spec_c9 ⟨(DefaultRetryPolicy.mk 0).asRetryPolicy, fun _ => 0⟩
    ⟨BodyState.noBody⟩ (fun _ => ⟨some ⟨200, "pong"⟩, none⟩) 1
    ⟨some ⟨200, "pong"⟩, none, 0, [BodyState.noBody], []⟩ ⟨200, "pong"⟩
    (by decide) rfl rfl).2.1 (by decide)
